import Mathlib

/-!
Verification of the Rainbow City agent-orchestration core and two frontend
handlers, as a shallow embedding of the source.

Part A embeds the orchestration flow documented (with its Python code
excerpts) in `docs/ai-tool-coordination.md`: the `ToolInvoker` registry with
its `invoke_tool` dispatch, the uncertainty-phrase detection, the Tavily
search augmentation branch, the tool-dispatch loop and the final model pass
of `AIAssistant._process_query_internal`.

Part B embeds the frontend `extractResponse` helper of
`AiChatRenderers.js` (with a model of JavaScript JSON.parse / JSON.stringify)
and the empty-input guard of `handleSubmit` in `AiChatHandlers.js`.

Python code that may raise is embedded as `Except String` valued (the
`error` side is a propagating exception carrying its message); model and
search endpoints are oracle parameters so the theorems quantify over every
possible model / provider behaviour.
-/

namespace RainbowSpec

/-- Message roles of the conversation context. -/
inductive Role where
  | system
  | user
  | assistant
  | tool
deriving DecidableEq, Repr

/-- One message of the conversation context.  `toolCallId` and `toolName`
are set only on tool-result messages. -/
structure Message where
  role : Role
  content : String
  toolCallId : Option String := none
  toolName : Option String := none
deriving DecidableEq, Repr

/-- A tool-call request returned by the model: correlation id, tool name and
keyword-argument mapping (values modelled as strings). -/
structure ToolCall where
  id : String
  name : String
  arguments : List (String × String)
deriving DecidableEq, Repr

/-- A model response: text content plus the (possibly empty) list of
tool-call requests, mirroring `first_response.get("content", "")` and
`first_response.get("tool_calls")`. -/
structure ModelResponse where
  content : String
  toolCalls : List ToolCall
deriving DecidableEq, Repr

/-- Keyword arguments passed to a tool handler (`**kwargs`). -/
abbrev ToolArgs := List (String × String)

/-- A tool handler: may return a result (already in its `str` form) or raise
an exception carrying a message (`Except.error`). -/
abbrev Handler := ToolArgs → Except String String

/-- The `ToolInvoker` registry: `self.tools`, a name-keyed mapping of
handlers (embedded as an association list with unique keys). -/
structure ToolInvoker where
  tools : List (String × Handler)

/-- Membership lookup in `self.tools` (`tool_name in self.tools` plus
`self.tools[tool_name]`). -/
def lookupTool (inv : ToolInvoker) (tool_name : String) : Option Handler :=
  (inv.tools.find? (fun p => p.1 == tool_name)).map (fun p => p.2)

/-- `ToolInvoker.invoke_tool` from `docs/ai-tool-coordination.md`:

    def invoke_tool(self, tool_name, **kwargs) -> str:
        if tool_name not in self.tools:
            return f"工具 (tool_name) 不存在"
        try:
            result = self.tools[tool_name](**kwargs)
            return str(result)
        except Exception as e:
            return f"工具调用失败: (str(e))"

The `Except.error` side of the result is the channel of a propagating
exception; the body returns on every path, so every branch is `Except.ok`. -/
def ToolInvoker.invoke_tool (inv : ToolInvoker) (tool_name : String)
    (kwargs : ToolArgs) : Except String String :=
  match lookupTool inv tool_name with
  | none => Except.ok ("工具 " ++ tool_name ++ " 不存在")
  | some handler =>
    match handler kwargs with
    | Except.ok result => Except.ok result
    | Except.error e => Except.ok ("工具调用失败: " ++ e)

/-- The string actually produced by `invoke_tool` (its in-band result). -/
def invokeText (inv : ToolInvoker) (tool_name : String) (kwargs : ToolArgs) :
    String :=
  match lookupTool inv tool_name with
  | none => "工具 " ++ tool_name ++ " 不存在"
  | some handler =>
    match handler kwargs with
    | Except.ok result => result
    | Except.error e => "工具调用失败: " ++ e

theorem invoke_tool_ok (inv : ToolInvoker) (n : String) (a : ToolArgs) :
    ToolInvoker.invoke_tool inv n a = Except.ok (invokeText inv n a) := by
  unfold ToolInvoker.invoke_tool invokeText
  cases lookupTool inv n with
  | none => rfl
  | some handler => cases h : handler a <;> simp [h]

/-- The fixed uncertainty-phrase list of `_process_query_internal`
(`uncertainty_phrases = ["我不知道", "无法提供", ...]`; the documentation
elides the tail of the list). -/
def uncertainty_phrases : List String := ["我不知道", "无法提供"]

/-- Python `str.lower()` applied to the response content, modelled at the
character-list level with `Char.toLower`. -/
def pyLower (s : String) : List Char := s.data.map Char.toLower

/-- `p` is a prefix of `cs` (character lists). -/
def isPrefixChars : List Char → List Char → Bool
  | [], _ => true
  | _ :: _, [] => false
  | p :: ps, c :: cs => p == c && isPrefixChars ps cs

/-- Python substring containment `p in cs`: `p` occurs contiguously in `cs`. -/
def occursIn (p : List Char) : List Char → Bool
  | [] => p.isEmpty
  | c :: cs => isPrefixChars p (c :: cs) || occursIn p cs

/-- `matched_phrases = [phrase for phrase in uncertainty_phrases if phrase
in initial_content]` where `initial_content = content.lower()`. -/
def matched_phrases (content : String) : List String :=
  uncertainty_phrases.filter (fun p => occursIn p.data (pyLower content))

/-- `if matched_phrases:` — the uncertainty test of the source. -/
def detectUncertainty (content : String) : Bool :=
  !(matched_phrases content).isEmpty

/-- The combined guard under which the source triggers augmentation:
`if not first_response.get("tool_calls"):` and then `if matched_phrases:`. -/
def uncertaintyVerdict (resp : ModelResponse) : Bool :=
  resp.toolCalls.isEmpty && detectUncertainty resp.content

/-- The system message injected after a successful search
(`search_message = ("role": "system", "content": f"根据最新的网络搜索结果，
这是关于 (search_query) 的信息...")`; the documentation elides the digest
formatting, which we model as appending the digest text). -/
def searchMessage (search_query : String) (digest : String) : Message :=
  ⟨Role.system, "根据最新的网络搜索结果，这是关于 " ++ search_query ++
    " 的信息: " ++ digest, none, none⟩

/-- Modelled from the spec: `context_builder.update_context_with_tool_result
(tool_name, tool_result, tool_call_id)` is only named, not shown, in the
repository; per spec §4.2 `appendToolResult` it appends one tool-role
message whose `toolCallId` is the invoking request's id. -/
def toolResultMessage (tool_name : String) (tool_result : String)
    (tool_call_id : String) : Message :=
  ⟨Role.tool, tool_result, some tool_call_id, some tool_name⟩

/-- Observable events of one orchestration run, in order: a model pass (with
the context it was handed and whether tool definitions were passed), the
evaluation of the uncertainty check, a search-provider call, a tool
invocation. -/
inductive Event where
  | modelCall (messages : List Message) (withTools : Bool)
  | detect (content : String)
  | searchCall (query : String)
  | toolInvoke (name : String) (result : String)
deriving DecidableEq, Repr

def isModelCallEvent : Event → Bool
  | Event.modelCall _ _ => true
  | _ => false

def isSearchEvent : Event → Bool
  | Event.searchCall _ => true
  | _ => false

def isDetectEvent : Event → Bool
  | Event.detect _ => true
  | _ => false

def isToolEvent : Event → Bool
  | Event.toolInvoke _ _ => true
  | _ => false

/-- The tools-flag of each model call of a run, in order. -/
def passFlags (evs : List Event) : List Bool :=
  evs.filterMap (fun e => match e with
    | Event.modelCall _ b => some b
    | _ => none)

def modelCallCount (evs : List Event) : Nat := (evs.filter isModelCallEvent).length

def searchCallCount (evs : List Event) : Nat := (evs.filter isSearchEvent).length

def detectCount (evs : List Event) : Nat := (evs.filter isDetectEvent).length

/-- Result of one run of `_process_query_internal`: the active (user-facing)
response, the final conversation context and the event trace. -/
structure RunResult where
  response : ModelResponse
  ctx : List Message
  events : List Event
deriving DecidableEq, Repr

/-- An LLM oracle: given the message list and whether tool definitions are
passed (`tools=tool_definitions` vs. omitted), produce the model response. -/
abbrev LlmOracle := List Message → Bool → ModelResponse

/-- A search oracle: `client_tavily.search(query=...)`; `Except.error` is a
raised `SearchProviderError` with its message. -/
abbrev SearchOracle := String → Except String String

/-- Stage one of `_process_query_internal`: the first LLM call (with tool
definitions) followed by the uncertainty check and, when it fires, the
Tavily search, context injection and tool-less second LLM call.  Returns
the active response, the context after this stage and the event trace.
The `Except.error` fallback branch is modelled from the spec: on search
failure the FirstPass response is kept unchanged (the documentation's
excerpt elides search error handling; spec §4.4/§4.5 states the fallback). -/
def stage1 (llm : LlmOracle) (search : SearchOracle)
    (ctx0 : List Message) (q : String) :
    ModelResponse × List Message × List Event :=
  let first := llm ctx0 true
  if first.toolCalls.isEmpty then
    if detectUncertainty first.content then
      match search q with
      | Except.ok digest =>
        let ctx1 := ctx0 ++ [searchMessage q digest]
        (llm ctx1 false, ctx1,
          [Event.modelCall ctx0 true, Event.detect first.content,
           Event.searchCall q, Event.modelCall ctx1 false])
      | Except.error _ =>
        (first, ctx0,
          [Event.modelCall ctx0 true, Event.detect first.content,
           Event.searchCall q])
    else
      (first, ctx0, [Event.modelCall ctx0 true, Event.detect first.content])
  else
    (first, ctx0, [Event.modelCall ctx0 true])

/-- The tool-dispatch loop: `for tool_call in first_response["tool_calls"]:`
invoking each tool and appending its result to the context.  A raised
exception (`Except.error`) would propagate and abort the loop — which, by
`invoke_tool_ok`, never happens. -/
def dispatchTools (inv : ToolInvoker) :
    List ToolCall → List Message → List Event →
    Except String (List Message × List Event)
  | [], ctx, evs => Except.ok (ctx, evs)
  | tc :: rest, ctx, evs =>
    match ToolInvoker.invoke_tool inv tc.name tc.arguments with
    | Except.error e => Except.error e
    | Except.ok tool_result =>
      dispatchTools inv rest
        (ctx ++ [toolResultMessage tc.name tool_result tc.id])
        (evs ++ [Event.toolInvoke tc.name tool_result])

/-- The tool-result messages the dispatch loop appends, in order. -/
def dispatchMsgs (inv : ToolInvoker) (tcs : List ToolCall) : List Message :=
  tcs.map (fun tc =>
    toolResultMessage tc.name (invokeText inv tc.name tc.arguments) tc.id)

/-- The tool-invocation events of the dispatch loop, in order. -/
def dispatchEvents (inv : ToolInvoker) (tcs : List ToolCall) : List Event :=
  tcs.map (fun tc =>
    Event.toolInvoke tc.name (invokeText inv tc.name tc.arguments))

theorem dispatchTools_eq (inv : ToolInvoker) (tcs : List ToolCall) :
    ∀ ctx evs, dispatchTools inv tcs ctx evs =
      Except.ok (ctx ++ dispatchMsgs inv tcs, evs ++ dispatchEvents inv tcs) := by
  induction tcs with
  | nil => intro ctx evs; simp [dispatchTools, dispatchMsgs, dispatchEvents]
  | cons tc rest ih =>
    intro ctx evs
    simp only [dispatchTools, invoke_tool_ok]
    rw [ih]
    simp [dispatchMsgs, dispatchEvents, List.append_assoc]

/-- `AIAssistant._process_query_internal`, per the flow of
`docs/ai-tool-coordination.md`: first pass with tool definitions;
uncertainty-triggered search augmentation with a tool-less re-pass; then, if
the active response carries tool calls, the dispatch loop followed by the
tool-less final pass (`final_response = await self.llm_caller.invoke(
updated_messages)`).  `Except.error` is a propagating exception. -/
def process_query_internal (llm : LlmOracle) (search : SearchOracle)
    (inv : ToolInvoker) (ctx0 : List Message) (q : String) :
    Except String RunResult :=
  match stage1 llm search ctx0 q with
  | (resp1, ctx1, ev1) =>
    if resp1.toolCalls.isEmpty then
      Except.ok ⟨resp1, ctx1, ev1⟩
    else
      match dispatchTools inv resp1.toolCalls ctx1 ev1 with
      | Except.error e => Except.error e
      | Except.ok (ctx2, ev2) =>
        Except.ok ⟨llm ctx2 false, ctx2, ev2 ++ [Event.modelCall ctx2 false]⟩

/-- Closed form of a run: the dispatch loop never raises, so the run always
completes with this result. -/
def runOf (llm : LlmOracle) (search : SearchOracle)
    (inv : ToolInvoker) (ctx0 : List Message) (q : String) : RunResult :=
  match stage1 llm search ctx0 q with
  | (resp1, ctx1, ev1) =>
    if resp1.toolCalls.isEmpty then
      ⟨resp1, ctx1, ev1⟩
    else
      ⟨llm (ctx1 ++ dispatchMsgs inv resp1.toolCalls) false,
       ctx1 ++ dispatchMsgs inv resp1.toolCalls,
       ev1 ++ dispatchEvents inv resp1.toolCalls ++
         [Event.modelCall (ctx1 ++ dispatchMsgs inv resp1.toolCalls) false]⟩

theorem process_query_eq (llm : LlmOracle) (search : SearchOracle)
    (inv : ToolInvoker) (ctx0 : List Message) (q : String) :
    process_query_internal llm search inv ctx0 q =
      Except.ok (runOf llm search inv ctx0 q) := by
  unfold process_query_internal runOf
  cases h : stage1 llm search ctx0 q with
  | mk resp1 rest =>
    cases rest with
    | mk ctx1 ev1 =>
      by_cases he : resp1.toolCalls.isEmpty
      · simp [he]
      · simp [he, dispatchTools_eq]

/-! Helper lemmas about event traces. -/

theorem dispatchEvents_all_tool (inv : ToolInvoker) (tcs : List ToolCall)
    (p : Event → Bool) (hp : ∀ n s, p (Event.toolInvoke n s) = false) :
    (dispatchEvents inv tcs).filter p = [] := by
  induction tcs with
  | nil => rfl
  | cons tc rest ih =>
    simp only [dispatchEvents, List.map_cons, List.filter_cons, hp]
    exact ih

theorem dispatchEvents_filter_tool (inv : ToolInvoker) (tcs : List ToolCall) :
    (dispatchEvents inv tcs).filter isToolEvent = dispatchEvents inv tcs := by
  induction tcs with
  | nil => rfl
  | cons tc rest ih =>
    simp only [dispatchEvents, List.map_cons, List.filter_cons, isToolEvent]
    simp only [if_pos]
    exact congrArg _ ih

theorem dispatchEvents_passFlags (inv : ToolInvoker) (tcs : List ToolCall) :
    passFlags (dispatchEvents inv tcs) = [] := by
  induction tcs with
  | nil => rfl
  | cons tc rest ih =>
    simp only [dispatchEvents, List.map_cons, passFlags, List.filterMap_cons]
    exact ih

theorem passFlags_append (l1 l2 : List Event) :
    passFlags (l1 ++ l2) = passFlags l1 ++ passFlags l2 := by
  simp [passFlags, List.filterMap_append]

/-- Case-insensitive substring occurrence of a phrase in a content string:
both sides lowered. -/
def occursCI (p content : String) : Bool :=
  occursIn (p.data.map Char.toLower) (pyLower content)

theorem phrase_lower_fixed :
    ∀ p ∈ uncertainty_phrases, p.data.map Char.toLower = p.data := by decide

theorem detect_eq_any_occursCI (c : String) :
    detectUncertainty c = uncertainty_phrases.any (fun p => occursCI p c) := by
  have h1 := phrase_lower_fixed "我不知道" (by simp [uncertainty_phrases])
  have h2 := phrase_lower_fixed "无法提供" (by simp [uncertainty_phrases])
  unfold detectUncertainty matched_phrases occursCI
  rw [show uncertainty_phrases = ["我不知道", "无法提供"] from rfl]
  simp only [List.filter_cons, List.filter_nil, List.any_cons, List.any_nil, h1, h2]
  cases hb1 : occursIn ("我不知道" : String).data (pyLower c) <;>
    cases hb2 : occursIn ("无法提供" : String).data (pyLower c) <;> simp

/-! ## Claims -/

/-- The registry with no tools registered. -/
def emptyInvoker : ToolInvoker := ⟨[]⟩

/-- Claim C1, counterexample: invoking an unregistered tool name does not
raise any error — `invoke_tool` returns normally, handing back the in-band
string `工具 generate_ai_id 不存在` exactly as for any other tool result,
refuting the claim that dispatch on an unknown name surfaces
`UnknownToolError` as a thrown internal error. -/
theorem claim1_counterexample :
    lookupTool emptyInvoker "generate_ai_id" = none ∧
    ToolInvoker.invoke_tool emptyInvoker "generate_ai_id" [] =
      Except.ok "工具 generate_ai_id 不存在" ∧
    (ToolInvoker.invoke_tool emptyInvoker "generate_ai_id" []).isOk = true :=
  ⟨rfl, rfl, rfl⟩

/-- Claim C1, amended: for every tool name that is not registered and every
argument mapping, `invoke_tool` does not raise; it returns, in-band, the
deterministic string `工具 <name> 不存在` as an ordinary tool result. -/
theorem claim1_amended (inv : ToolInvoker) (n : String) (a : ToolArgs)
    (h : lookupTool inv n = none) :
    ToolInvoker.invoke_tool inv n a =
      Except.ok ("工具 " ++ n ++ " 不存在") := by
  unfold ToolInvoker.invoke_tool
  rw [h]

theorem claim1_witness :
    lookupTool emptyInvoker "lookup_weather" = none ∧
    ToolInvoker.invoke_tool emptyInvoker "lookup_weather" [("city", "Paris")] =
      Except.ok "工具 lookup_weather 不存在" :=
  ⟨rfl, claim1_amended emptyInvoker "lookup_weather" [("city", "Paris")] rfl⟩

/-- Claim C2: for registered tool names `invoke_tool` is total — it always
returns (never raises past its boundary); a handler that raises with
message `m` yields the deterministic in-band result `工具调用失败: m`; and
whenever the active response carries tool calls, the run still ends with a
final tool-less model pass (FinalPass executes). -/
theorem claim2_tool_failure_inband
    (inv : ToolInvoker) (n : String) (a : ToolArgs) (handler : Handler)
    (m : String) (llm : LlmOracle) (search : SearchOracle)
    (ctx0 : List Message) (q : String)
    (hreg : lookupTool inv n = some handler)
    (hraise : handler a = Except.error m)
    (hcalls : (stage1 llm search ctx0 q).1.toolCalls ≠ []) :
    (∀ a2 : ToolArgs, (ToolInvoker.invoke_tool inv n a2).isOk = true)
    ∧ ToolInvoker.invoke_tool inv n a = Except.ok ("工具调用失败: " ++ m)
    ∧ ∃ r, process_query_internal llm search inv ctx0 q = Except.ok r ∧
        ∃ c, r.events.getLast? = some (Event.modelCall c false) := by
  refine ⟨fun a2 => by rw [invoke_tool_ok]; rfl, ?_, ?_⟩
  · unfold ToolInvoker.invoke_tool
    simp only [hreg, hraise]
  · refine ⟨runOf llm search inv ctx0 q, process_query_eq llm search inv ctx0 q, ?_⟩
    unfold runOf
    cases h : stage1 llm search ctx0 q with
    | mk resp1 rest =>
      cases rest with
      | mk ctx1 ev1 =>
        have hne : resp1.toolCalls.isEmpty = false := by
          have := hcalls
          rw [h] at this
          simpa [List.isEmpty_iff] using this
        refine ⟨ctx1 ++ dispatchMsgs inv resp1.toolCalls, ?_⟩
        simp [hne, List.getLast?_concat]

/-- A handler that always raises `ValueError("bad input")`. -/
def boomHandler : Handler := fun _ => Except.error "bad input"

def invBoom : ToolInvoker := ⟨[("boom", boomHandler)]⟩

/-- A two-message initial context: system prompt then user message. -/
def ctx2Msgs : List Message :=
  [⟨Role.system, "系统指令", none, none⟩, ⟨Role.user, "你好", none, none⟩]

/-- An LLM oracle that requests the `boom` tool on the first pass. -/
def llmBoom : LlmOracle := fun msgs _ =>
  if msgs.length == 2 then ⟨"", [⟨"c1", "boom", [("x", "1")]⟩]⟩
  else ⟨"done", []⟩

/-- A search oracle that always succeeds. -/
def searchOkOracle : SearchOracle := fun _ => Except.ok "digest"

theorem claim2_witness :
    ToolInvoker.invoke_tool invBoom "boom" [("x", "1")] =
      Except.ok "工具调用失败: bad input" ∧
    ∃ r, process_query_internal llmBoom searchOkOracle invBoom ctx2Msgs "q" =
        Except.ok r ∧
      ∃ c, r.events.getLast? = some (Event.modelCall c false) := by
  have h := claim2_tool_failure_inband invBoom "boom" [("x", "1")] boomHandler
    "bad input" llmBoom searchOkOracle ctx2Msgs "q" rfl rfl (by decide)
  exact ⟨h.2.1, h.2.2⟩

/-- Claim C3: the uncertainty verdict is positive iff the pass carried no
tool calls and at least one phrase of the fixed list occurs as a
case-insensitive substring of the content; and in a cycle whose FirstPass
response has non-empty `toolCalls`, the uncertainty detection is never
evaluated and no augmentation search occurs. -/
theorem claim3_uncertainty_verdict (resp : ModelResponse) (llm : LlmOracle)
    (search : SearchOracle) (inv : ToolInvoker) (ctx0 : List Message)
    (q : String) (hcalls : (llm ctx0 true).toolCalls ≠ []) :
    (uncertaintyVerdict resp = true ↔
      (resp.toolCalls = [] ∧
        uncertainty_phrases.any (fun p => occursCI p resp.content) = true))
    ∧ ∃ r, process_query_internal llm search inv ctx0 q = Except.ok r ∧
        detectCount r.events = 0 ∧ searchCallCount r.events = 0 := by
  constructor
  · unfold uncertaintyVerdict
    rw [detect_eq_any_occursCI]
    simp [List.isEmpty_iff]
  · refine ⟨runOf llm search inv ctx0 q,
      process_query_eq llm search inv ctx0 q, ?_⟩
    have hne : (llm ctx0 true).toolCalls.isEmpty = false := by
      simpa [List.isEmpty_iff] using hcalls
    unfold runOf stage1
    simp only [hne, Bool.false_eq_true, if_false, detectCount, searchCallCount,
      List.filter_append, List.filter_cons, List.filter_nil, isDetectEvent,
      isSearchEvent, List.length_append]
    constructor <;>
      simp [dispatchEvents_all_tool inv _ isDetectEvent (fun _ _ => rfl),
        dispatchEvents_all_tool inv _ isSearchEvent (fun _ _ => rfl)]

def llmToolReq : LlmOracle := fun msgs _ =>
  if msgs.length == 2 then ⟨"", [⟨"c1", "generate_ai_id", []⟩]⟩
  else ⟨"好的", []⟩

theorem claim3_witness :
    (uncertaintyVerdict ⟨"对不起，我不知道这个问题的答案", []⟩ = true ↔
      (([] : List ToolCall) = [] ∧
        uncertainty_phrases.any
          (fun p => occursCI p "对不起，我不知道这个问题的答案") = true))
    ∧ ∃ r, process_query_internal llmToolReq searchOkOracle emptyInvoker
          ctx2Msgs "q" = Except.ok r ∧
        detectCount r.events = 0 ∧ searchCallCount r.events = 0 :=
  claim3_uncertainty_verdict ⟨"对不起，我不知道这个问题的答案", []⟩
    llmToolReq searchOkOracle emptyInvoker ctx2Msgs "q" (by decide)

/-- Number of model passes that were handed tool definitions. -/
def isFirstPassEvent : Event → Bool
  | Event.modelCall _ b => b
  | _ => false

def firstPassCount (evs : List Event) : Nat :=
  (evs.filter isFirstPassEvent).length

/-- Model-pass count of a completed run (0 if the run raised). -/
def runCalls (x : Except String RunResult) : Nat :=
  match x with
  | Except.ok r => modelCallCount r.events
  | Except.error _ => 0

/-- Search-call count of a completed run (0 if the run raised). -/
def runSearches (x : Except String RunResult) : Nat :=
  match x with
  | Except.ok r => searchCallCount r.events
  | Except.error _ => 0

/-- An LLM oracle: uncertain on the first pass, a tool request on the
(search-augmented) second pass, text on the final pass. -/
def llmUncertainThenTool : LlmOracle := fun msgs _ =>
  if msgs.length == 2 then ⟨"我不知道", []⟩
  else if msgs.length == 3 then ⟨"", [⟨"c1", "echo", []⟩]⟩
  else ⟨"done", []⟩

def invEcho : ToolInvoker := ⟨[("echo", fun _ => Except.ok "ok")]⟩

/-- Claim C4, counterexample: with an uncertain FirstPass, a successful
search, and a SecondPass that requests a tool, a single user turn performs
three model passes — two additional passes beyond FirstPass — refuting "at
most one additional ModelGateway pass".  (The search-call bound itself
holds: exactly one search.) -/
theorem claim4_counterexample :
    runCalls (process_query_internal llmUncertainThenTool searchOkOracle
      invEcho ctx2Msgs "q") = 3 ∧
    runSearches (process_query_internal llmUncertainThenTool searchOkOracle
      invEcho ctx2Msgs "q") = 1 := by
  exact ⟨by decide, by decide⟩

/-- Claim C4, amended: per user turn at most one search call and at most two
additional model passes beyond FirstPass occur (three passes total, reached
only when an augmented second pass itself requests tools); the run's first
event is the single FirstPass, exactly one pass is handed tool definitions,
and the flow never returns to FirstPass. -/
theorem claim4_amended (llm : LlmOracle) (search : SearchOracle)
    (inv : ToolInvoker) (ctx0 : List Message) (q : String) :
    ∃ r, process_query_internal llm search inv ctx0 q = Except.ok r ∧
      searchCallCount r.events ≤ 1 ∧
      modelCallCount r.events ≤ 3 ∧
      r.events.head? = some (Event.modelCall ctx0 true) ∧
      firstPassCount r.events = 1 := by
  refine ⟨runOf llm search inv ctx0 q,
    process_query_eq llm search inv ctx0 q, ?_⟩
  have hde := fun tcs => dispatchEvents_all_tool inv tcs isSearchEvent
    (fun _ _ => rfl)
  have hdm := fun tcs => dispatchEvents_all_tool inv tcs isModelCallEvent
    (fun _ _ => rfl)
  have hdf := fun tcs => dispatchEvents_all_tool inv tcs isFirstPassEvent
    (fun _ _ => rfl)
  unfold runOf stage1
  cases h1 : (llm ctx0 true).toolCalls.isEmpty
  · simp only [h1, Bool.false_eq_true, if_false]
    simp [searchCallCount, modelCallCount, firstPassCount, List.filter_append,
      List.filter_cons, isSearchEvent, isModelCallEvent, isFirstPassEvent,
      hde, hdm, hdf]
  · cases h2 : detectUncertainty (llm ctx0 true).content
    · simp only [h1, h2, Bool.false_eq_true, if_true, if_false]
      simp [searchCallCount, modelCallCount, firstPassCount, List.filter_cons,
        isSearchEvent, isModelCallEvent, isFirstPassEvent]
    · cases h3 : search q with
      | ok digest =>
        simp only [h1, h2, h3, if_true]
        cases h4 : (llm (ctx0 ++ [searchMessage q digest]) false).toolCalls.isEmpty
        · simp only [h4, Bool.false_eq_true, if_false]
          simp [searchCallCount, modelCallCount, firstPassCount,
            List.filter_append, List.filter_cons, isSearchEvent,
            isModelCallEvent, isFirstPassEvent, hde, hdm, hdf]
        · simp only [h4, if_true]
          simp [searchCallCount, modelCallCount, firstPassCount,
            List.filter_cons, isSearchEvent, isModelCallEvent, isFirstPassEvent]
      | error e =>
        simp only [h1, h2, h3, if_true]
        simp [searchCallCount, modelCallCount, firstPassCount, List.filter_cons,
          isSearchEvent, isModelCallEvent, isFirstPassEvent]

/-- Claim C5: when the FirstPass response carries no tool calls, the
uncertainty check fires, and the search provider raises, the failure is
non-fatal: the run completes normally (no exception), the FirstPass
response stands unchanged as the turn's answer, the context is untouched,
and the turn ends (no further pass). -/
theorem claim5_search_failure_nonfatal (llm : LlmOracle)
    (search : SearchOracle) (inv : ToolInvoker) (ctx0 : List Message)
    (q : String) (e : String)
    (h1 : (llm ctx0 true).toolCalls = [])
    (h2 : detectUncertainty (llm ctx0 true).content = true)
    (h3 : search q = Except.error e) :
    process_query_internal llm search inv ctx0 q =
      Except.ok ⟨llm ctx0 true, ctx0,
        [Event.modelCall ctx0 true, Event.detect (llm ctx0 true).content,
         Event.searchCall q]⟩ := by
  unfold process_query_internal stage1
  simp [h1, h2, h3]

def llmUncertain : LlmOracle := fun _ _ => ⟨"我不知道", []⟩

def searchFailOracle : SearchOracle := fun _ => Except.error "timeout"

theorem claim5_witness :
    process_query_internal llmUncertain searchFailOracle emptyInvoker
        ctx2Msgs "天气" =
      Except.ok ⟨⟨"我不知道", []⟩, ctx2Msgs,
        [Event.modelCall ctx2Msgs true, Event.detect "我不知道",
         Event.searchCall "天气"]⟩ :=
  claim5_search_failure_nonfatal llmUncertain searchFailOracle emptyInvoker
    ctx2Msgs "天气" "timeout" rfl (by decide) rfl

theorem stage1_no_tool_events (llm : LlmOracle) (search : SearchOracle)
    (ctx0 : List Message) (q : String) :
    (stage1 llm search ctx0 q).2.2.filter isToolEvent = [] := by
  unfold stage1
  cases h1 : (llm ctx0 true).toolCalls.isEmpty
  · simp [h1, isToolEvent]
  · cases h2 : detectUncertainty (llm ctx0 true).content
    · simp [h1, h2, isToolEvent]
    · cases h3 : search q with
      | ok digest => simp [h1, h2, h3, isToolEvent]
      | error e => simp [h1, h2, h3, isToolEvent]

/-- Claim C6: whenever the active response carries tool calls, the dispatch
loop executes every request, in exactly the model's order, each one even if
an earlier handler failed (failures are in-band text), and appends to the
context exactly one tool-result message per request, in order, carrying
that request's correlation id. -/
theorem claim6_dispatch_in_order (llm : LlmOracle) (search : SearchOracle)
    (inv : ToolInvoker) (ctx0 : List Message) (q : String)
    (hne : (stage1 llm search ctx0 q).1.toolCalls ≠ []) :
    ∃ r, process_query_internal llm search inv ctx0 q = Except.ok r ∧
      r.events.filter isToolEvent =
        (stage1 llm search ctx0 q).1.toolCalls.map
          (fun tc => Event.toolInvoke tc.name
            (invokeText inv tc.name tc.arguments)) ∧
      r.ctx = (stage1 llm search ctx0 q).2.1 ++
        (stage1 llm search ctx0 q).1.toolCalls.map
          (fun tc => toolResultMessage tc.name
            (invokeText inv tc.name tc.arguments) tc.id) := by
  refine ⟨runOf llm search inv ctx0 q,
    process_query_eq llm search inv ctx0 q, ?_⟩
  have h5 := stage1_no_tool_events llm search ctx0 q
  unfold runOf
  cases h : stage1 llm search ctx0 q with
  | mk resp1 rest =>
    cases rest with
    | mk ctx1 ev1 =>
      rw [h] at h5
      have hne2 : resp1.toolCalls.isEmpty = false := by
        have := hne
        rw [h] at this
        simpa [List.isEmpty_iff] using this
      constructor
      · simp only [hne2, Bool.false_eq_true, if_false, List.filter_append, h5,
          dispatchEvents_filter_tool, List.filter_cons, List.filter_nil,
          isToolEvent]
        simp [dispatchEvents]
      · simp [hne2, dispatchMsgs]

/-- Two tools for the dispatch witness: the first always raises, the second
returns an id. -/
def invTwoTools : ToolInvoker :=
  ⟨[("first_tool", fun _ => Except.error "boom"),
    ("second_tool", fun _ => Except.ok "AI-7F3D2E1A")]⟩

def llmTwoCalls : LlmOracle := fun msgs _ =>
  if msgs.length == 2 then
    ⟨"", [⟨"c1", "first_tool", []⟩, ⟨"c2", "second_tool", []⟩]⟩
  else ⟨"done", []⟩

theorem claim6_witness :
    ∃ r, process_query_internal llmTwoCalls searchOkOracle invTwoTools
        ctx2Msgs "q" = Except.ok r ∧
      r.events.filter isToolEvent =
        (stage1 llmTwoCalls searchOkOracle ctx2Msgs "q").1.toolCalls.map
          (fun tc => Event.toolInvoke tc.name
            (invokeText invTwoTools tc.name tc.arguments)) ∧
      r.ctx = (stage1 llmTwoCalls searchOkOracle ctx2Msgs "q").2.1 ++
        (stage1 llmTwoCalls searchOkOracle ctx2Msgs "q").1.toolCalls.map
          (fun tc => toolResultMessage tc.name
            (invokeText invTwoTools tc.name tc.arguments) tc.id) :=
  claim6_dispatch_in_order llmTwoCalls searchOkOracle invTwoTools ctx2Msgs "q"
    (by decide)

/-- Claim C7: tool definitions are handed to the model only on FirstPass —
the tools-flag sequence of the model passes of any run is `[true]`,
`[true, false]` or `[true, false, false]`; the search re-pass and the
post-dispatch final pass always omit tool definitions, so no second round
of tool calling can be requested in one turn. -/
theorem claim7_tool_defs_only_first_pass (llm : LlmOracle)
    (search : SearchOracle) (inv : ToolInvoker) (ctx0 : List Message)
    (q : String) :
    ∃ r, process_query_internal llm search inv ctx0 q = Except.ok r ∧
      (passFlags r.events = [true] ∨ passFlags r.events = [true, false] ∨
        passFlags r.events = [true, false, false]) := by
  refine ⟨runOf llm search inv ctx0 q,
    process_query_eq llm search inv ctx0 q, ?_⟩
  unfold runOf stage1
  cases h1 : (llm ctx0 true).toolCalls.isEmpty
  · simp only [h1, Bool.false_eq_true, if_false]
    rw [passFlags_append, passFlags_append, dispatchEvents_passFlags]
    simp [passFlags]
  · cases h2 : detectUncertainty (llm ctx0 true).content
    · simp [h1, h2, passFlags]
    · cases h3 : search q with
      | ok digest =>
        cases h4 : (llm (ctx0 ++ [searchMessage q digest]) false).toolCalls.isEmpty
        · simp only [h1, h2, h3, h4, if_true, Bool.false_eq_true, if_false]
          rw [passFlags_append, passFlags_append, dispatchEvents_passFlags]
          simp [passFlags]
        · simp [h1, h2, h3, h4, passFlags]
      | error e => simp [h1, h2, h3, passFlags]

/-- Claim C8: within one cycle the conversation context is append-only:
the context after the augmentation stage extends the initial context by a
(possibly empty) suffix, and the final context extends the stage-one
context by a (possibly empty) suffix of appended tool-result messages — no
message already present is ever edited, replaced or removed. -/
theorem claim8_context_append_only (llm : LlmOracle) (search : SearchOracle)
    (inv : ToolInvoker) (ctx0 : List Message) (q : String) :
    ∃ r, process_query_internal llm search inv ctx0 q = Except.ok r ∧
      ∃ t1 t2, (stage1 llm search ctx0 q).2.1 = ctx0 ++ t1 ∧
        r.ctx = (stage1 llm search ctx0 q).2.1 ++ t2 := by
  refine ⟨runOf llm search inv ctx0 q,
    process_query_eq llm search inv ctx0 q, ?_⟩
  unfold runOf stage1
  cases h1 : (llm ctx0 true).toolCalls.isEmpty
  · exact ⟨[], dispatchMsgs inv (llm ctx0 true).toolCalls, by simp [h1], by simp [h1]⟩
  · cases h2 : detectUncertainty (llm ctx0 true).content
    · exact ⟨[], [], by simp [h1, h2], by simp [h1, h2]⟩
    · cases h3 : search q with
      | ok digest =>
        cases h4 : (llm (ctx0 ++ [searchMessage q digest]) false).toolCalls.isEmpty
        · exact ⟨[searchMessage q digest],
            dispatchMsgs inv
              ((llm (ctx0 ++ [searchMessage q digest]) false).toolCalls),
            by simp [h1, h2, h3, h4], by simp [h1, h2, h3, h4]⟩
        · exact ⟨[searchMessage q digest], [],
            by simp [h1, h2, h3, h4], by simp [h1, h2, h3, h4]⟩
      | error e => exact ⟨[], [], by simp [h1, h2, h3], by simp [h1, h2, h3]⟩

/-! ## Part B: frontend message rendering and submit guard

A model of JavaScript JSON values and of `JSON.parse` / `JSON.stringify`,
for the `extractResponse` helper of `AiChatRenderers.js`.  Numbers keep
their source lexeme (numeric value identity is irrelevant to the claims;
only zero-ness feeds JS truthiness).  `\u` escapes map single code units
through `Char.ofNat` (surrogate-pair combination is not modelled).  -/

inductive Json where
  | null
  | bool (b : Bool)
  | num (lexeme : String)
  | str (s : String)
  | arr (elems : List Json)
  | obj (fields : List (String × Json))

/-- JSON insignificant whitespace (also the set `String.trim` removes). -/
def jsonWs (c : Char) : Bool := c == ' ' || c == '\t' || c == '\n' || c == '\r'

def skipWs : List Char → List Char
  | [] => []
  | c :: cs => if jsonWs c then skipWs cs else c :: cs

def hexVal (c : Char) : Option Nat :=
  if '0' ≤ c ∧ c ≤ '9' then some (c.toNat - '0'.toNat)
  else if 'a' ≤ c ∧ c ≤ 'f' then some (c.toNat - 'a'.toNat + 10)
  else if 'A' ≤ c ∧ c ≤ 'F' then some (c.toNat - 'A'.toNat + 10)
  else none

/-- JSON string-literal body (after the opening quote), with the standard
escapes; raw control characters are rejected as JSON.parse does. -/
def parseStringBody : Nat → List Char → List Char → Option (String × List Char)
  | 0, _, _ => none
  | _ + 1, _, [] => none
  | fuel + 1, acc, c :: cs =>
    if c == '"' then some (String.mk acc.reverse, cs)
    else if c == '\\' then
      match cs with
      | [] => none
      | e :: cs2 =>
        if e == '"' then parseStringBody fuel ('"' :: acc) cs2
        else if e == '\\' then parseStringBody fuel ('\\' :: acc) cs2
        else if e == '/' then parseStringBody fuel ('/' :: acc) cs2
        else if e == 'b' then parseStringBody fuel ('\x08' :: acc) cs2
        else if e == 'f' then parseStringBody fuel ('\x0c' :: acc) cs2
        else if e == 'n' then parseStringBody fuel ('\n' :: acc) cs2
        else if e == 'r' then parseStringBody fuel ('\r' :: acc) cs2
        else if e == 't' then parseStringBody fuel ('\t' :: acc) cs2
        else if e == 'u' then
          match cs2 with
          | h1 :: h2 :: h3 :: h4 :: cs3 =>
            match hexVal h1, hexVal h2, hexVal h3, hexVal h4 with
            | some v1, some v2, some v3, some v4 =>
              parseStringBody fuel
                (Char.ofNat (((v1 * 16 + v2) * 16 + v3) * 16 + v4) :: acc) cs3
            | _, _, _, _ => none
          | _ => none
        else none
    else if c.toNat < 32 then none
    else parseStringBody fuel (c :: acc) cs

def takeDigits : List Char → List Char × List Char
  | [] => ([], [])
  | c :: cs =>
    if c.isDigit then
      let r := takeDigits cs
      (c :: r.1, r.2)
    else ([], c :: cs)

/-- JSON number grammar `-? (0 | [1-9][0-9]*) frac? exp?`, keeping the
matched lexeme. -/
def parseNumber (cs0 : List Char) : Option (String × List Char) :=
  let sgnSplit : List Char × List Char :=
    match cs0 with
    | '-' :: r => (['-'], r)
    | _ => ([], cs0)
  match sgnSplit.2 with
  | [] => none
  | c :: _ =>
    if c.isDigit then
      let ipartSplit : List Char × List Char :=
        if c == '0' then (['0'], sgnSplit.2.tail) else takeDigits sgnSplit.2
      let fres : Option (List Char × List Char) :=
        match ipartSplit.2 with
        | '.' :: r =>
          let ds := takeDigits r
          if ds.1.isEmpty then none else some ('.' :: ds.1, ds.2)
        | other => some ([], other)
      match fres with
      | none => none
      | some (fpart, cs3) =>
        let eres : Option (List Char × List Char) :=
          match cs3 with
          | e :: r =>
            if e == 'e' || e == 'E' then
              let esgnSplit : List Char × List Char :=
                match r with
                | '+' :: r3 => (['+'], r3)
                | '-' :: r3 => (['-'], r3)
                | _ => ([], r)
              let ds := takeDigits esgnSplit.2
              if ds.1.isEmpty then none
              else some (e :: (esgnSplit.1 ++ ds.1), ds.2)
            else some ([], cs3)
          | [] => some ([], [])
        match eres with
        | none => none
        | some (epart, cs4) =>
          some (String.mk (sgnSplit.1 ++ ipartSplit.1 ++ fpart ++ epart), cs4)
    else none

mutual

/-- One JSON value at the head of the input (whitespace already skipped). -/
def parseValue : Nat → List Char → Option (Json × List Char)
  | 0, _ => none
  | fuel + 1, cs =>
    match cs with
    | [] => none
    | 't' :: 'r' :: 'u' :: 'e' :: cs2 => some (Json.bool true, cs2)
    | 'f' :: 'a' :: 'l' :: 's' :: 'e' :: cs2 => some (Json.bool false, cs2)
    | 'n' :: 'u' :: 'l' :: 'l' :: cs2 => some (Json.null, cs2)
    | '"' :: cs1 =>
      match parseStringBody fuel [] cs1 with
      | some (s, cs2) => some (Json.str s, cs2)
      | none => none
    | c :: cs1 =>
      if c == '\x7b' then parseObjRest fuel (skipWs cs1)
      else if c == '[' then parseArrRest fuel (skipWs cs1)
      else
        match parseNumber cs with
        | some (lex, cs2) => some (Json.num lex, cs2)
        | none => none

/-- Object tail, after the opening brace and whitespace. -/
def parseObjRest : Nat → List Char → Option (Json × List Char)
  | 0, _ => none
  | fuel + 1, cs =>
    match cs with
    | '\x7d' :: cs2 => some (Json.obj [], cs2)
    | _ =>
      match parseMembers fuel cs with
      | some (fields, cs2) =>
        match skipWs cs2 with
        | '\x7d' :: cs3 => some (Json.obj fields, cs3)
        | _ => none
      | none => none

/-- Array tail, after the opening bracket and whitespace. -/
def parseArrRest : Nat → List Char → Option (Json × List Char)
  | 0, _ => none
  | fuel + 1, cs =>
    match cs with
    | ']' :: cs2 => some (Json.arr [], cs2)
    | _ =>
      match parseElems fuel cs with
      | some (vs, cs2) =>
        match skipWs cs2 with
        | ']' :: cs3 => some (Json.arr vs, cs3)
        | _ => none
      | none => none

/-- One or more comma-separated `"key": value` members. -/
def parseMembers : Nat → List Char → Option (List (String × Json) × List Char)
  | 0, _ => none
  | fuel + 1, cs =>
    match cs with
    | '"' :: cs1 =>
      match parseStringBody fuel [] cs1 with
      | some (k, cs2) =>
        match skipWs cs2 with
        | ':' :: cs3 =>
          match parseValue fuel (skipWs cs3) with
          | some (v, cs4) =>
            match skipWs cs4 with
            | ',' :: cs5 =>
              match parseMembers fuel (skipWs cs5) with
              | some (fs, cs6) => some ((k, v) :: fs, cs6)
              | none => none
            | cs5 => some ([(k, v)], cs5)
          | none => none
        | _ => none
      | none => none
    | _ => none

/-- One or more comma-separated array elements. -/
def parseElems : Nat → List Char → Option (List Json × List Char)
  | 0, _ => none
  | fuel + 1, cs =>
    match parseValue fuel cs with
    | some (v, cs2) =>
      match skipWs cs2 with
      | ',' :: cs3 =>
        match parseElems fuel (skipWs cs3) with
        | some (vs, cs4) => some (v :: vs, cs4)
        | none => none
      | cs3 => some ([v], cs3)
    | none => none

end

/-- `JSON.parse`: parse one value with surrounding whitespace and require
full consumption; `none` is a thrown `SyntaxError`. -/
def Json.parse (s : String) : Option Json :=
  match parseValue (2 * s.length + 8) (skipWs s.data) with
  | some (j, rest) => if (skipWs rest).isEmpty then some j else none
  | none => none

def escapeChar (c : Char) : String :=
  if c == '"' then "\\\""
  else if c == '\\' then "\\\\"
  else if c == '\n' then "\\n"
  else if c == '\r' then "\\r"
  else if c == '\t' then "\\t"
  else if c == '\x08' then "\\b"
  else if c == '\x0c' then "\\f"
  else String.mk [c]

def escapeJsonString (s : String) : String :=
  "\"" ++ String.join (s.data.map escapeChar) ++ "\""

mutual

/-- `JSON.stringify` (for the values reachable here: no `undefined`,
functions, or cycles). -/
def Json.stringify : Json → String
  | Json.null => "null"
  | Json.bool true => "true"
  | Json.bool false => "false"
  | Json.num lex => lex
  | Json.str s => escapeJsonString s
  | Json.arr vs => "[" ++ stringifyElems vs ++ "]"
  | Json.obj fs => "\x7b" ++ stringifyFields fs ++ "\x7d"

def stringifyElems : List Json → String
  | [] => ""
  | [v] => Json.stringify v
  | v :: vs => Json.stringify v ++ "," ++ stringifyElems vs

def stringifyFields : List (String × Json) → String
  | [] => ""
  | [(k, v)] => escapeJsonString k ++ ":" ++ Json.stringify v
  | (k, v) :: fs =>
    escapeJsonString k ++ ":" ++ Json.stringify v ++ "," ++ stringifyFields fs

end

/-- JS property read `parsed.response`: on an object, the value of the last
binding of the key (later duplicate keys win in `JSON.parse`); `none` is
`undefined`. -/
def Json.getField : Json → String → Option Json
  | Json.obj fs, k => (fs.reverse.find? (fun p => p.1 == k)).map (fun p => p.2)
  | _, _ => none

/-- A parsed JSON number is zero iff every mantissa digit is `0`. -/
def numIsZero (lex : String) : Bool :=
  (lex.data.takeWhile (fun c => !(c == 'e' || c == 'E'))).all
    (fun c => !c.isDigit || c == '0')

/-- JS truthiness of a `JSON.parse` result: `null`, `false`, `0` and the
empty string are falsy; every object and array is truthy. -/
def Json.truthy : Json → Bool
  | Json.null => false
  | Json.bool b => b
  | Json.num lex => !numIsZero lex
  | Json.str s => !(s == "")
  | Json.arr _ => true
  | Json.obj _ => true

/-- `typeof v === 'string' ? v : JSON.stringify(v)`. -/
def jsDisplay (v : Json) : String :=
  match v with
  | Json.str s => s
  | v => Json.stringify v

/-- JS `String.prototype.trim()`, modelled over the character list with the
same whitespace set as JSON (space, tab, newline, carriage return). -/
def jsTrim (s : String) : String :=
  String.mk (((s.data.dropWhile jsonWs).reverse.dropWhile jsonWs).reverse)

/-- `trimmed.startsWith('\x7b')` on the model level. -/
def startsWithBrace (s : String) : Bool :=
  match s.data with
  | c :: _ => c == '\x7b'
  | [] => false

/-- `extractResponse` of `AiChatRenderers.js` (the string-content branch,
which is the one the text renderer reaches):

    if (!content) return '';
    const trimmed = content.trim();
    if (trimmed.startsWith('(')) (
      try (
        const parsed = JSON.parse(trimmed);
        if (parsed && parsed.response)
          return typeof parsed.response === 'string' ?
            parsed.response : JSON.stringify(parsed.response);
      ) catch (e) ( /* fall through */ )
    )
    return trimmed;

(brace characters shown as parentheses above). -/
def extractResponse (content : String) : String :=
  if content = "" then ""
  else
    let trimmed := jsTrim content
    if startsWithBrace trimmed then
      match Json.parse trimmed with
      | some parsed =>
        match parsed.getField "response" with
        | some v => if v.truthy then jsDisplay v else trimmed
        | none => trimmed
      | none => trimmed
    else trimmed

/-- Claim C9: for string message content, if the trimmed content starts
with a brace and parses as JSON whose `response` field is present and
truthy, exactly that field's value is displayed (stringified when not a
string); when parsing fails, when the field is absent, or when the content
does not start with a brace, the trimmed original is displayed unchanged —
in particular malformed JSON never makes rendering throw. -/
theorem claim9_extract_response (content : String) :
    (∀ j v, content ≠ "" → startsWithBrace (jsTrim content) = true →
      Json.parse (jsTrim content) = some j →
      Json.getField j "response" = some v →
      Json.truthy v = true → extractResponse content = jsDisplay v)
    ∧ (content ≠ "" → startsWithBrace (jsTrim content) = true →
      Json.parse (jsTrim content) = none →
      extractResponse content = jsTrim content)
    ∧ (∀ j, content ≠ "" → startsWithBrace (jsTrim content) = true →
      Json.parse (jsTrim content) = some j →
      Json.getField j "response" = none →
      extractResponse content = jsTrim content)
    ∧ (content ≠ "" → startsWithBrace (jsTrim content) = false →
      extractResponse content = jsTrim content) := by
  refine ⟨?_, ?_, ?_, ?_⟩
  · intro j v hne hsw hp hg ht
    unfold extractResponse
    simp [hne, hsw, hp, hg, ht]
  · intro hne hsw hp
    unfold extractResponse
    simp [hne, hsw, hp]
  · intro j hne hsw hp hg
    unfold extractResponse
    simp [hne, hsw, hp, hg]
  · intro hne hsw
    unfold extractResponse
    simp [hne, hsw]

theorem claim9_witness :
    ("  \x7b\"response\": \"你好\"\x7d" : String) ≠ "" ∧
    Json.parse (jsTrim "  \x7b\"response\": \"你好\"\x7d") =
      some (Json.obj [("response", Json.str "你好")]) ∧
    extractResponse "  \x7b\"response\": \"你好\"\x7d" = "你好" := by
  refine ⟨by decide, rfl, ?_⟩
  exact (claim9_extract_response "  \x7b\"response\": \"你好\"\x7d").1
    (Json.obj [("response", Json.str "你好")]) (Json.str "你好")
    (by decide) rfl rfl rfl rfl

/-- One pending attachment of the chat input. -/
structure Attachment where
  id : String
  atype : String
deriving DecidableEq, Repr

/-- The chat state `handleSubmit` can touch: the controlled text input, the
attachment list, the message list, the session and turn ids, the loading
flag and the error banner. -/
structure ChatState where
  textInput : String
  attachments : List Attachment
  messages : List String
  sessionId : String
  turnId : String
  isLoading : Bool
  error : Option String
deriving DecidableEq, Repr

/-- Outcome of one `handleSubmit` call: the state afterwards, the network
requests issued, and whether the form's default was prevented. -/
structure SubmitOutcome where
  state : ChatState
  requests : List String
  preventedDefault : Bool
deriving DecidableEq, Repr

/-- The head of `handleSubmit` in `AiChatHandlers.js`: `e.preventDefault()`
runs first, then (after plain local declarations)

    if (!textInput.trim() && attachments.length === 0) return;

`rest` is the continuation embedding everything after the guard (message
construction, state setters, fetch). -/
def handleSubmit (rest : ChatState → ChatState × List String)
    (st : ChatState) : SubmitOutcome :=
  if jsTrim st.textInput = "" ∧ st.attachments = [] then
    ⟨st, [], true⟩
  else
    ⟨(rest st).1, (rest st).2, true⟩

/-- Claim C10: when the trimmed text input is empty and no attachment is
pending, `handleSubmit` is a complete no-op apart from default prevention:
no network request is sent and the whole chat state — messages, session id,
turn id and all — is returned untouched, whatever the rest of the handler
would have done. -/
theorem claim10_empty_submit_noop (rest : ChatState → ChatState × List String)
    (st : ChatState) (h1 : jsTrim st.textInput = "")
    (h2 : st.attachments = []) :
    handleSubmit rest st = ⟨st, [], true⟩ := by
  unfold handleSubmit
  simp [h1, h2]

def stIdle : ChatState :=
  ⟨"   ", [], ["先前消息"], "session-0001", "turn-0001", false, none⟩

theorem claim10_witness :
    handleSubmit
      (fun st => ({ st with messages := st.messages ++ ["新消息"] },
        ["POST /api/chat"]))
      stIdle = ⟨stIdle, [], true⟩ :=
  claim10_empty_submit_noop _ stIdle (by decide) rfl

end RainbowSpec
